/-
Verification of the benchmark execution and measurement core of a
command-line benchmarking tool (a hyperfine fork with hardware-counter
support).

The development shallowly embeds the Rust sources:
  * src/poop_metrics/types.rs        — PoopMetrics, MetricType
  * src/poop_metrics/perf_events.rs  — PerfEventsCollector (open/enable/disable/read)
  * src/benchmark/timing_result.rs   — TimingResult
  * src/benchmark/mod.rs             — aggregate_poop_metrics, Benchmark::run

Floating-point `f64` time values are embedded as rationals; `u64` counter
values and run counts are embedded as naturals.  External effects (the
process-spawning executor, perf_event_open / ioctl / read syscalls) are
embedded as explicit outcome oracles passed to the functions that consume
them.  Components of the repository that live outside the given sources
(the executor implementation, the outlier-score computation, the
statistical helpers) are modelled from the specification and marked as
such in their doc comments.
-/
import Mathlib

/-! ## Data model: poop metrics (src/poop_metrics/types.rs) -/

/-- The seven collectable metric kinds (`MetricType` in types.rs). -/
inductive MetricType where
  | CpuCycles
  | Instructions
  | CacheReferences
  | CacheMisses
  | Branches
  | BranchMisses
  | PageFaults
deriving DecidableEq, Repr

/-- One counter sample: seven independent optional u64 fields
(`PoopMetrics` in types.rs).  u64 values are embedded as `ℕ`. -/
structure PoopMetrics where
  cpu_cycles : Option ℕ
  instructions : Option ℕ
  cache_references : Option ℕ
  cache_misses : Option ℕ
  branches : Option ℕ
  branch_misses : Option ℕ
  page_faults : Option ℕ
deriving DecidableEq, Repr

/-- `PoopMetrics::new` / `Default`: every field absent. -/
def PoopMetrics.new : PoopMetrics :=
  ⟨none, none, none, none, none, none, none⟩

/-- `PoopMetrics::has_data`: true if any metric has been collected. -/
def PoopMetrics.has_data (m : PoopMetrics) : Bool :=
  m.cpu_cycles.isSome || m.instructions.isSome || m.cache_references.isSome
    || m.cache_misses.isSome || m.branches.isSome || m.branch_misses.isSome
    || m.page_faults.isSome

/-- `PoopMetrics::cache_miss_rate`: `(misses / refs) * 100` when both inputs
are present and the denominator is positive.  The `f64` result is embedded
as `ℚ`. -/
def PoopMetrics.cache_miss_rate (m : PoopMetrics) : Option ℚ :=
  match m.cache_references, m.cache_misses with
  | some refs, some misses =>
      if 0 < refs then some (((misses : ℚ) / (refs : ℚ)) * 100) else none
  | _, _ => none

/-- `PoopMetrics::branch_miss_rate`: `(misses / branches) * 100` when both
inputs are present and the denominator is positive. -/
def PoopMetrics.branch_miss_rate (m : PoopMetrics) : Option ℚ :=
  match m.branches, m.branch_misses with
  | some branches, some misses =>
      if 0 < branches then some (((misses : ℚ) / (branches : ℚ)) * 100) else none
  | _, _ => none

/-- `PoopMetrics::instructions_per_cycle`: `inst / cycles` when both inputs
are present and the denominator is positive. -/
def PoopMetrics.instructions_per_cycle (m : PoopMetrics) : Option ℚ :=
  match m.instructions, m.cpu_cycles with
  | some inst, some cycles =>
      if 0 < cycles then some ((inst : ℚ) / (cycles : ℚ)) else none
  | _, _ => none

/-- Projection of the sample slot named by a `MetricType`. -/
def PoopMetrics.slot (s : PoopMetrics) : MetricType → Option ℕ
  | .CpuCycles => s.cpu_cycles
  | .Instructions => s.instructions
  | .CacheReferences => s.cache_references
  | .CacheMisses => s.cache_misses
  | .Branches => s.branches
  | .BranchMisses => s.branch_misses
  | .PageFaults => s.page_faults

/-! ## Data model: timing results (src/benchmark/timing_result.rs) -/

/-- Per-execution timing record (`TimingResult`).  `f64` seconds are
embedded as `ℚ`, `u64` bytes as `ℕ`. -/
structure TimingResult where
  time_real : ℚ
  time_user : ℚ
  time_system : ℚ
  memory_usage_byte : ℕ
  poop_metrics : Option PoopMetrics
deriving DecidableEq, Repr

/-! ## Counter aggregation (src/benchmark/mod.rs, `aggregate_poop_metrics`) -/

/-- `aggregate_poop_metrics`: combine the counter samples of all timing
results.  Mirrors the source: collect the samples of all results that carry
one; return `none` if that collection is empty; otherwise, per metric slot,
count the samples having the slot, and set the aggregate slot to the
natural-number (floor) division of the sum of present values by that count
when it is positive, leaving the slot absent otherwise. -/
def aggregate_poop_metrics (timing_results : List TimingResult) : Option PoopMetrics :=
  let metrics_with_data := timing_results.filterMap (fun tr => tr.poop_metrics)
  if metrics_with_data.isEmpty then
    none
  else
    let cpu_cycles_count := (metrics_with_data.filter (fun m => m.cpu_cycles.isSome)).length
    let instructions_count := (metrics_with_data.filter (fun m => m.instructions.isSome)).length
    let cache_refs_count := (metrics_with_data.filter (fun m => m.cache_references.isSome)).length
    let cache_misses_count := (metrics_with_data.filter (fun m => m.cache_misses.isSome)).length
    let branches_count := (metrics_with_data.filter (fun m => m.branches.isSome)).length
    let branch_misses_count := (metrics_with_data.filter (fun m => m.branch_misses.isSome)).length
    let page_faults_count := (metrics_with_data.filter (fun m => m.page_faults.isSome)).length
    some
      { cpu_cycles :=
          if 0 < cpu_cycles_count then
            some ((metrics_with_data.filterMap (fun m => m.cpu_cycles)).sum / cpu_cycles_count)
          else none,
        instructions :=
          if 0 < instructions_count then
            some ((metrics_with_data.filterMap (fun m => m.instructions)).sum / instructions_count)
          else none,
        cache_references :=
          if 0 < cache_refs_count then
            some ((metrics_with_data.filterMap (fun m => m.cache_references)).sum / cache_refs_count)
          else none,
        cache_misses :=
          if 0 < cache_misses_count then
            some ((metrics_with_data.filterMap (fun m => m.cache_misses)).sum / cache_misses_count)
          else none,
        branches :=
          if 0 < branches_count then
            some ((metrics_with_data.filterMap (fun m => m.branches)).sum / branches_count)
          else none,
        branch_misses :=
          if 0 < branch_misses_count then
            some ((metrics_with_data.filterMap (fun m => m.branch_misses)).sum / branch_misses_count)
          else none,
        page_faults :=
          if 0 < page_faults_count then
            some ((metrics_with_data.filterMap (fun m => m.page_faults)).sum / page_faults_count)
          else none }

/-! ## Claim C7: presence conditions of the derived ratios -/

/-- C7.  For every `PoopMetrics` sample: `cache_miss_rate` is present iff
`cache_misses` is present and `cache_references` is present with a strictly
positive value; symmetrically for `branch_miss_rate`; and
`instructions_per_cycle` is present iff `instructions` is present and
`cpu_cycles` is present with a strictly positive value. -/
theorem c7_ratio_presence (m : PoopMetrics) :
    ((m.cache_miss_rate).isSome = true ↔
      m.cache_misses.isSome = true ∧ ∃ r, m.cache_references = some r ∧ 0 < r) ∧
    ((m.branch_miss_rate).isSome = true ↔
      m.branch_misses.isSome = true ∧ ∃ b, m.branches = some b ∧ 0 < b) ∧
    ((m.instructions_per_cycle).isSome = true ↔
      m.instructions.isSome = true ∧ ∃ c, m.cpu_cycles = some c ∧ 0 < c) := by
  refine ⟨?_, ?_, ?_⟩
  · unfold PoopMetrics.cache_miss_rate
    rcases m.cache_references with _ | refs <;> rcases hm : m.cache_misses with _ | misses <;>
      simp [hm]
  · unfold PoopMetrics.branch_miss_rate
    rcases m.branches with _ | branches <;> rcases hm : m.branch_misses with _ | misses <;>
      simp [hm]
  · unfold PoopMetrics.instructions_per_cycle
    rcases m.cpu_cycles with _ | cycles <;> rcases hm : m.instructions with _ | inst <;>
      simp [hm]

/-! ## Claim C3: the counter aggregator -/

/-- A timing result whose counter sample is present but has every slot
absent: no metric is present anywhere in `[c3_empty_sample_result]`. -/
def c3_empty_sample_result : TimingResult :=
  ⟨0, 0, 0, 0, some PoopMetrics.new⟩

/-- C3, counterexample.  The claim says the aggregator returns `none`
whenever no sample has any metric present.  The input
`[c3_empty_sample_result]` carries a counter sample with every slot absent
— so no metric is present — yet `aggregate_poop_metrics` returns
`some PoopMetrics.new`, not `none`: the source only tests whether the list
of attached samples is empty. -/
theorem c3_counterexample :
    c3_empty_sample_result.poop_metrics = some PoopMetrics.new ∧
    PoopMetrics.new.has_data = false ∧
    aggregate_poop_metrics [c3_empty_sample_result] = some PoopMetrics.new := by
  refine ⟨rfl, rfl, ?_⟩
  rfl

/-- C3, amended.  For every vector of timing results and each of the seven
metric slots independently: the aggregate slot is absent when no attached
sample has that slot present, and otherwise equals the floor of the sum of
present values divided by the number of samples having the slot; the
aggregator as a whole returns `none` exactly when no timing result carries
a counter sample (a present sample with all slots absent still yields a
present, all-absent aggregate). -/
theorem c3_aggregate_characterization (timing_results : List TimingResult) :
    (aggregate_poop_metrics timing_results = none ↔
      timing_results.filterMap (fun tr => tr.poop_metrics) = []) ∧
    (∀ m : MetricType,
      ((((timing_results.filterMap (fun tr => tr.poop_metrics)).filter
            (fun s => (s.slot m).isSome)).length = 0 →
          (aggregate_poop_metrics timing_results).bind (fun a => a.slot m) = none) ∧
        (0 < (((timing_results.filterMap (fun tr => tr.poop_metrics)).filter
            (fun s => (s.slot m).isSome)).length) →
          (aggregate_poop_metrics timing_results).bind (fun a => a.slot m) =
            some (((timing_results.filterMap (fun tr => tr.poop_metrics)).filterMap
                (fun s => s.slot m)).sum /
              (((timing_results.filterMap (fun tr => tr.poop_metrics)).filter
                (fun s => (s.slot m).isSome)).length))))) := by
  constructor
  · simp only [aggregate_poop_metrics]
    split
    · simp_all [List.isEmpty_iff]
    · simp_all [List.isEmpty_iff]
  · intro m
    simp only [aggregate_poop_metrics]
    split
    · rename_i hempty
      rw [List.isEmpty_iff] at hempty
      constructor
      · intro _; rfl
      · intro hpos
        rw [hempty] at hpos
        simp at hpos
    · cases m <;>
        simp only [PoopMetrics.slot, Option.bind_some, Option.some_bind] <;>
        constructor <;> intro h <;> simp [h]

/-! ## Counter collector (src/poop_metrics/perf_events.rs)

`perf_event_open`, `ioctl` and `read` are kernel calls; they are embedded
as outcome oracles.  `open_ok m = some fd` means opening the counter for
metric `m` yields file descriptor `fd`; `none` means the open fails.
`read_ok fd` is the value delivered by a raw 8-byte read of `fd` (`none`
when the read fails).  `ioctl_ok fd` tells whether an enable/disable ioctl
on `fd` succeeds. -/

/-- `PerfEventsCollector`: one optional counter (owning file descriptor)
per metric.  A `none` slot means the metric was not requested or its open
failed. -/
structure PerfEventsCollector where
  cpu_cycles : Option ℕ
  instructions : Option ℕ
  cache_references : Option ℕ
  cache_misses : Option ℕ
  branches : Option ℕ
  branch_misses : Option ℕ
  page_faults : Option ℕ
deriving DecidableEq, Repr

/-- `PerfEventsCollector::new(pid, metrics)`: attempt one counter per
requested metric (all seven when `metrics` is empty); a failed individual
open (`open_ok m = none`, the `.ok()` in the source) leaves that slot
absent; construction itself always succeeds. -/
def PerfEventsCollector.new (metrics : List MetricType) (open_ok : MetricType → Option ℕ) :
    Except Unit PerfEventsCollector :=
  let collect_all := metrics.isEmpty
  let should_collect := fun (m : MetricType) => collect_all || decide (m ∈ metrics)
  .ok
    { cpu_cycles := if should_collect .CpuCycles then open_ok .CpuCycles else none,
      instructions := if should_collect .Instructions then open_ok .Instructions else none,
      cache_references := if should_collect .CacheReferences then open_ok .CacheReferences else none,
      cache_misses := if should_collect .CacheMisses then open_ok .CacheMisses else none,
      branches := if should_collect .Branches then open_ok .Branches else none,
      branch_misses := if should_collect .BranchMisses then open_ok .BranchMisses else none,
      page_faults := if should_collect .PageFaults then open_ok .PageFaults else none }

/-- Projection of the collector slot named by a `MetricType`. -/
def PerfEventsCollector.slotOf (c : PerfEventsCollector) : MetricType → Option ℕ
  | .CpuCycles => c.cpu_cycles
  | .Instructions => c.instructions
  | .CacheReferences => c.cache_references
  | .CacheMisses => c.cache_misses
  | .Branches => c.branches
  | .BranchMisses => c.branch_misses
  | .PageFaults => c.page_faults

/-- `PerfEventsCollector::read`: read every counter; a failed per-counter
read (`read_value().ok()` in the source) degrades that field to absent; the
call as a whole always returns a sample. -/
def PerfEventsCollector.read (c : PerfEventsCollector) (read_ok : ℕ → Option ℕ) :
    Except Unit PoopMetrics :=
  .ok
    { cpu_cycles := c.cpu_cycles.bind read_ok,
      instructions := c.instructions.bind read_ok,
      cache_references := c.cache_references.bind read_ok,
      cache_misses := c.cache_misses.bind read_ok,
      branches := c.branches.bind read_ok,
      branch_misses := c.branch_misses.bind read_ok,
      page_faults := c.page_faults.bind read_ok }

/-- The fixed order in which `enable` and `disable` visit the counters. -/
def PerfEventsCollector.fdsInOrder (c : PerfEventsCollector) : List (Option ℕ) :=
  [c.cpu_cycles, c.instructions, c.cache_references, c.cache_misses,
   c.branches, c.branch_misses, c.page_faults]

/-- Point update of the kernel-side enabled/disabled state of one fd. -/
def updateEnabled (st : ℕ → Bool) (fd : ℕ) (b : Bool) : ℕ → Bool :=
  fun x => if x = fd then b else st x

/-- Sequentially apply the enable (`b = true`) or disable (`b = false`)
ioctl to each present counter, in list order; the first failing ioctl stops
the walk, its fd is reported, and the state reached so far is kept. -/
def runIoctls (ioctl_ok : ℕ → Bool) (b : Bool) :
    List (Option ℕ) → (ℕ → Bool) → ((ℕ → Bool) × Option ℕ)
  | [], st => (st, none)
  | none :: rest, st => runIoctls ioctl_ok b rest st
  | some fd :: rest, st =>
      if ioctl_ok fd then runIoctls ioctl_ok b rest (updateEnabled st fd b)
      else (st, some fd)

/-- `PerfEventsCollector::enable`: enable each present counter in the fixed
field order, propagating the first ioctl error. -/
def PerfEventsCollector.enable (c : PerfEventsCollector) (ioctl_ok : ℕ → Bool)
    (st : ℕ → Bool) : ((ℕ → Bool) × Option ℕ) :=
  runIoctls ioctl_ok true c.fdsInOrder st

/-- `PerfEventsCollector::disable`: disable each present counter in the
fixed field order, propagating the first ioctl error. -/
def PerfEventsCollector.disable (c : PerfEventsCollector) (ioctl_ok : ℕ → Bool)
    (st : ℕ → Bool) : ((ℕ → Bool) × Option ℕ) :=
  runIoctls ioctl_ok false c.fdsInOrder st

/-! ## Claim C6: graceful degradation of the collector -/

/-- C6.  For every pid (implicit: the model never consults it), requested
metric list and oracle outcomes: construction succeeds even when individual
opens fail, exactly the failing (or unrequested) slots are absent, all
seven metrics are attempted when the requested list is empty, and `read`
always returns a sample in which a counter whose raw read fails is degraded
to an absent field. -/
theorem c6_collector_degrades (metrics : List MetricType)
    (open_ok : MetricType → Option ℕ) (read_ok : ℕ → Option ℕ) :
    (∃ c, PerfEventsCollector.new metrics open_ok = .ok c) ∧
    (∀ c, PerfEventsCollector.new metrics open_ok = .ok c →
      (∀ m, c.slotOf m = if metrics = [] ∨ m ∈ metrics then open_ok m else none) ∧
      (∃ s, c.read read_ok = .ok s) ∧
      (∀ s, c.read read_ok = .ok s →
        ∀ m, s.slot m = (c.slotOf m).bind read_ok)) := by
  constructor
  · exact ⟨_, rfl⟩
  · intro c hc
    simp only [PerfEventsCollector.new, Except.ok.injEq] at hc
    subst hc
    refine ⟨?_, ⟨_, rfl⟩, ?_⟩
    · intro m
      cases m <;>
        simp [PerfEventsCollector.slotOf, List.isEmpty_iff, Bool.or_eq_true,
          decide_eq_true_iff]
    · intro s hs m
      simp only [PerfEventsCollector.read, Except.ok.injEq] at hs
      subst hs
      cases m <;> rfl

/-! ## Claim C10: enable/disable are not atomic on error -/

/-- Walking a counter list split as `L1 ++ some fd :: L2`, where every
present counter of `L1` passes its ioctl and `fd` fails: the walk stops at
`fd`, reports it, applies the new state to exactly the present counters of
`L1`, and leaves everything else (in particular `fd` and all of `L2`)
untouched. -/
theorem runIoctls_first_failure (ioctl_ok : ℕ → Bool) (b : Bool)
    (L1 L2 : List (Option ℕ)) (fd : ℕ) (hfail : ioctl_ok fd = false)
    (hL1 : ∀ x ∈ L1.filterMap id, ioctl_ok x = true) :
    ∀ st, runIoctls ioctl_ok b (L1 ++ some fd :: L2) st =
      ((fun x => if x ∈ L1.filterMap id then b else st x), some fd) := by
  induction L1 with
  | nil =>
    intro st
    simp only [List.nil_append, runIoctls, hfail, Bool.false_eq_true, if_false,
      List.filterMap_nil, List.not_mem_nil, if_neg (fun h => h)]
  | cons o rest ih =>
    intro st
    cases o with
    | none =>
      rw [List.cons_append]
      show runIoctls ioctl_ok b (rest ++ some fd :: L2) st = _
      rw [ih (fun x hx => hL1 x (by simpa using hx)) st]
      simp
    | some a =>
      have ha : ioctl_ok a = true := hL1 a (by simp)
      rw [List.cons_append]
      show (if ioctl_ok a = true then
          runIoctls ioctl_ok b (rest ++ some fd :: L2) (updateEnabled st a b)
        else (st, some a)) = _
      rw [if_pos ha, ih (fun x hx => hL1 x (by simp [hx])) (updateEnabled st a b)]
      refine Prod.ext ?_ rfl
      funext x
      by_cases hxa : x = a
      · subst hxa
        simp [updateEnabled]
      · by_cases hxr : x ∈ rest.filterMap id
        · simp [hxr, hxa, updateEnabled]
        · simp [hxr, hxa, updateEnabled]

/-- C10.  The collector's enable and disable walk the counters in the fixed
field order cpu_cycles, instructions, cache_references, cache_misses,
branches, branch_misses, page_faults; the first per-counter ioctl failure
is returned immediately; every present counter before the failing one is
left in the newly applied state (enabled resp. disabled), and the failing
counter and all later ones keep their previous state. -/
theorem c10_enable_disable_not_atomic (c : PerfEventsCollector)
    (ioctl_ok : ℕ → Bool) (st : ℕ → Bool) (L1 L2 : List (Option ℕ)) (fd : ℕ)
    (hsplit : c.fdsInOrder = L1 ++ some fd :: L2)
    (hfail : ioctl_ok fd = false)
    (hL1 : ∀ x ∈ L1.filterMap id, ioctl_ok x = true)
    (hfd : fd ∉ L1.filterMap id) :
    c.enable ioctl_ok st =
      ((fun x => if x ∈ L1.filterMap id then true else st x), some fd) ∧
    c.disable ioctl_ok st =
      ((fun x => if x ∈ L1.filterMap id then false else st x), some fd) ∧
    (c.enable ioctl_ok st).1 fd = st fd ∧
    (c.disable ioctl_ok st).1 fd = st fd := by
  have he := runIoctls_first_failure ioctl_ok true L1 L2 fd hfail hL1 st
  have hd := runIoctls_first_failure ioctl_ok false L1 L2 fd hfail hL1 st
  rw [← hsplit] at he hd
  refine ⟨he, hd, ?_, ?_⟩
  · rw [PerfEventsCollector.enable, he]
    simp [hfd]
  · rw [PerfEventsCollector.disable, hd]
    simp [hfd]

/-- Concrete open oracle for the C6 witness: every open succeeds except the
one for `Instructions`. -/
def c6_open_oracle : MetricType → Option ℕ
  | .Instructions => none
  | .CpuCycles => some 10
  | .CacheReferences => some 11
  | .CacheMisses => some 12
  | .Branches => some 13
  | .BranchMisses => some 14
  | .PageFaults => some 15

/-- Concrete read oracle for the C6 witness: only fd 10 reads back. -/
def c6_read_oracle : ℕ → Option ℕ :=
  fun fd => if fd = 10 then some 42 else none

/-- Witness for C6 at the empty request list and the concrete oracles. -/
theorem c6_collector_degrades_witness :
    (∃ c, PerfEventsCollector.new [] c6_open_oracle = .ok c) ∧
    (∀ c, PerfEventsCollector.new [] c6_open_oracle = .ok c →
      (∀ m, c.slotOf m =
        if ([] : List MetricType) = [] ∨ m ∈ ([] : List MetricType) then c6_open_oracle m
        else none) ∧
      (∃ s, c.read c6_read_oracle = .ok s) ∧
      (∀ s, c.read c6_read_oracle = .ok s →
        ∀ m, s.slot m = (c.slotOf m).bind c6_read_oracle)) :=
  c6_collector_degrades [] c6_open_oracle c6_read_oracle

/-- Concrete collector for the C10 witness: counters on fds 1, 2, 3, 4 with
the cache_references, branches and branch_misses slots absent. -/
def c10_collector : PerfEventsCollector :=
  ⟨some 1, some 2, none, some 3, none, none, some 4⟩

/-- Concrete ioctl oracle for the C10 witness: only fd 3 fails. -/
def c10_ioctl_oracle : ℕ → Bool :=
  fun fd => decide (fd ≠ 3)

/-- Concrete starting state for the C10 witness: everything disabled. -/
def c10_state : ℕ → Bool :=
  fun _ => false

/-- Witness for C10: enabling `c10_collector` fails at fd 3 (the
cache_misses counter), leaves fds 1 and 2 enabled and everything else,
including fd 3 and fd 4, untouched. -/
theorem c10_enable_disable_not_atomic_witness :
    c10_collector.enable c10_ioctl_oracle c10_state =
      ((fun x => if x ∈ ([some 1, some 2, none] : List (Option ℕ)).filterMap id then true
        else c10_state x), some 3) ∧
    c10_collector.disable c10_ioctl_oracle c10_state =
      ((fun x => if x ∈ ([some 1, some 2, none] : List (Option ℕ)).filterMap id then false
        else c10_state x), some 3) ∧
    (c10_collector.enable c10_ioctl_oracle c10_state).1 3 = c10_state 3 ∧
    (c10_collector.disable c10_ioctl_oracle c10_state).1 3 = c10_state 3 :=
  c10_enable_disable_not_atomic c10_collector c10_ioctl_oracle c10_state
    [some 1, some 2, none] [none, none, some 4] 3 rfl rfl (by decide) (by decide)

/-! ## Statistics and outlier scores

The statistical helpers (`statistical::mean/median/standard_deviation`,
`util::min_max`) and the outlier-score computation
(`crate::outlier_detection`) live outside the given sources; they are
modelled from the specification. -/

/-- Modelled from the spec: arithmetic mean (`statistical::mean`), sum of
the samples over their number. -/
def meanQ (xs : List ℚ) : ℚ :=
  xs.sum / (xs.length : ℚ)

/-- Modelled from the spec: median (`statistical::median`), middle element
of the sorted samples, or the average of the two middle elements for an
even count. -/
def medianQ (xs : List ℚ) : ℚ :=
  let s := List.insertionSort (fun a b => a ≤ b) xs
  let n := s.length
  if n % 2 = 1 then s.getD (n / 2) 0
  else (s.getD (n / 2 - 1) 0 + s.getD (n / 2) 0) / 2

/-- Modelled from the spec: the sample variance with Bessel's correction,
standing in for `statistical::standard_deviation` (whose square root is
irrational in general and is never inspected by any claim; only the
presence of the field matters). -/
def sampleVarianceQ (xs : List ℚ) : ℚ :=
  (xs.map (fun x => (x - meanQ xs) ^ 2)).sum / ((xs.length : ℚ) - 1)

/-- Modelled from the spec: minimum of the samples (`util::min_max::min`). -/
def minQ (xs : List ℚ) : ℚ :=
  match xs with
  | [] => 0
  | h :: t => t.foldl min h

/-- Modelled from the spec: maximum of the samples (`util::min_max::max`). -/
def maxQ (xs : List ℚ) : ℚ :=
  match xs with
  | [] => 0
  | h :: t => t.foldl max h

/-- Modelled from the spec: `outlier_detection::modified_zscores`, the
robust anomaly score of each sample based on the median and the median
absolute deviation (MAD), with the calibration constant 0.6745 of the
original literature.  In `ℚ`, division by a zero MAD yields 0. -/
def modified_zscores (xs : List ℚ) : List ℚ :=
  let m := medianQ xs
  let mad := medianQ (xs.map (fun x => |x - m|))
  xs.map (fun x => (6745 / 10000) * (x - m) / mad)

/-- Modelled from the spec: `outlier_detection::OUTLIER_THRESHOLD`, the
published calibration constant carried in source (3.5 in the original
literature). -/
def OUTLIER_THRESHOLD : ℚ := 35 / 10

/-- Contextual flags carried by the outlier warnings
(`output::warnings::OutlierWarningOptions`). -/
structure OutlierWarningOptions where
  warmup_in_use : Bool
  prepare_in_use : Bool
deriving DecidableEq, Repr

/-- The two outlier-related warning kinds emitted by the driver. -/
inductive OutlierWarning where
  | SlowInitialRun (first_time : ℚ) (o : OutlierWarningOptions)
  | OutliersDetected (o : OutlierWarningOptions)
deriving DecidableEq, Repr

/-- The driver's outlier classification (Benchmark::run, the block running
outlier detection): compute the modified z-scores of the measured real
times; if the first score exceeds the threshold emit `SlowInitialRun`
(carrying the first sample), else if any score's absolute value exceeds
the threshold emit `OutliersDetected`. -/
def outlierClassification (times_real : List ℚ) (owo : OutlierWarningOptions) :
    Option OutlierWarning :=
  let scores := modified_zscores times_real
  if OUTLIER_THRESHOLD < scores.headI then
    some (.SlowInitialRun times_real.headI owo)
  else if scores.any (fun s => decide (OUTLIER_THRESHOLD < |s|)) then
    some (.OutliersDetected owo)
  else
    none

/-! ## Claim C4: outlier classification -/

/-- C4.  For every non-empty vector of measured real times the driver's
outlier classification emits `SlowInitialRun` exactly when the modified
z-score of the first sample exceeds the threshold (one-sided, high);
otherwise it emits `OutliersDetected` exactly when some sample's absolute
modified z-score exceeds the threshold; the two warnings are never both
emitted for the same benchmark. -/
theorem c4_outlier_classification (ts : List ℚ) (owo : OutlierWarningOptions)
    (_h : ts ≠ []) :
    (outlierClassification ts owo = some (.SlowInitialRun ts.headI owo) ↔
      OUTLIER_THRESHOLD < (modified_zscores ts).headI) ∧
    (outlierClassification ts owo = some (.OutliersDetected owo) ↔
      (¬ OUTLIER_THRESHOLD < (modified_zscores ts).headI ∧
        ∃ s ∈ modified_zscores ts, OUTLIER_THRESHOLD < |s|)) ∧
    ¬ (outlierClassification ts owo = some (.SlowInitialRun ts.headI owo) ∧
        outlierClassification ts owo = some (.OutliersDetected owo)) := by
  refine ⟨?_, ?_, ?_⟩
  · simp only [outlierClassification]
    split
    · rename_i h1
      simp [h1]
    · rename_i h1
      split <;> simp [h1]
  · simp only [outlierClassification]
    split
    · rename_i h1
      simp [h1]
    · rename_i h1
      split
      · rename_i h2
        rw [List.any_eq_true] at h2
        simp only [decide_eq_true_iff] at h2
        simp [h1, h2]
      · rename_i h2
        simp only [List.any_eq_true, decide_eq_true_iff] at h2
        push_neg at h2
        constructor
        · intro hfalse
          exact absurd hfalse (by simp)
        · rintro ⟨-, s, hs, habs⟩
          exact absurd habs (not_lt.mpr (h2 s hs))
  · rintro ⟨ha, hb⟩
    rw [ha] at hb
    simp at hb

/-- Concrete time vector for the C4 witness: a slow first run followed by
five fast ones. -/
def c4_times : List ℚ := [5, 1/10, 1/10, 1/10, 1/10, 1/10]

/-- Concrete warning context for the C4 witness. -/
def c4_owo : OutlierWarningOptions := ⟨false, false⟩

/-- Witness for C4 at the concrete slow-first-run vector. -/
theorem c4_outlier_classification_witness :
    (outlierClassification c4_times c4_owo =
        some (.SlowInitialRun c4_times.headI c4_owo) ↔
      OUTLIER_THRESHOLD < (modified_zscores c4_times).headI) ∧
    (outlierClassification c4_times c4_owo = some (.OutliersDetected c4_owo) ↔
      (¬ OUTLIER_THRESHOLD < (modified_zscores c4_times).headI ∧
        ∃ s ∈ modified_zscores c4_times, OUTLIER_THRESHOLD < |s|)) ∧
    ¬ (outlierClassification c4_times c4_owo =
          some (.SlowInitialRun c4_times.headI c4_owo) ∧
        outlierClassification c4_times c4_owo = some (.OutliersDetected c4_owo)) :=
  c4_outlier_classification c4_times c4_owo (by decide)

/-! ## The benchmark driver (src/benchmark/mod.rs, `Benchmark::run`)

The driver is embedded for a single benchmark of one command.  The
process-spawning executor behind `run_command_and_measure` is not part of
the given sources; following the executor contract of the specification it
is modelled as a record of outcome oracles, one per call site, indexed by
the iteration number.  An `Except.error` outcome stands for the `?`-raised
failure of that call (e.g. a hook exiting non-zero under raise-on-failure
semantics); progress-bar and console output are pure side channels and are
not modelled. -/

/-- Exit status of one command execution: `success` is
`ExitStatus::success()`, `code` is `extract_exit_code` (`None` when the
platform reports no code, e.g. death by signal). -/
structure ExitStatus where
  success : Bool
  code : Option Int
deriving DecidableEq, Repr

/-- The driver-relevant fields of `options::Options`.  `run_bounds_min` /
`run_bounds_max` are `options.run_bounds.min` / `.max`;
`min_benchmarking_time` is the `--min-benchmarking-time` budget; the
`has_*` flags record whether the corresponding hook command is configured. -/
structure Options where
  warmup_count : ℕ
  run_bounds_min : ℕ
  run_bounds_max : Option ℕ
  min_benchmarking_time : ℚ
  has_setup_command : Bool
  has_preparation_command : Bool
  has_conclusion_command : Bool
  has_cleanup_command : Bool
deriving DecidableEq, Repr

/-- Modelled from the spec: the executor contract (§4.E).  One outcome
oracle per driver call site, indexed by invocation number, plus the
`time_overhead()` constant.  The executor implementation itself is not
among the given sources. -/
structure ExecModel where
  time_overhead : ℚ
  setup : Except Unit TimingResult
  cleanup : Except Unit TimingResult
  warmupPrepare : ℕ → Except Unit TimingResult
  warmupRun : ℕ → Except Unit (TimingResult × ExitStatus)
  warmupConclude : ℕ → Except Unit TimingResult
  benchPrepare : ℕ → Except Unit TimingResult
  benchRun : ℕ → Except Unit (TimingResult × ExitStatus)
  benchConclude : ℕ → Except Unit TimingResult

/-- An optional hook invocation: `command.map(run).transpose()` in the
source — `ok none` when the hook is not configured, otherwise the hook's
own outcome. -/
def runHook (configured : Bool) (outcome : Except Unit TimingResult) :
    Except Unit (Option TimingResult) :=
  if configured then outcome.map some else .ok none

/-- `preparation_result.map_or(0.0, |res| res.time_real + overhead)`: the
per-run overhead contributed by an optional hook result. -/
def hookOverhead (ov : ℚ) : Option TimingResult → ℚ
  | none => 0
  | some res => res.time_real + ov

/-- The warmup loop: `warmup_count` iterations of prepare → command →
conclude with all measurements discarded; hook errors propagate, command
outcomes are discarded. -/
def warmupPhase (opts : Options) (ex : ExecModel) : ℕ → ℕ → Except Unit Unit
  | 0, _ => .ok ()
  | Nat.succ n, i =>
    match runHook opts.has_preparation_command (ex.warmupPrepare i) with
    | .error e => .error e
    | .ok _ =>
      match ex.warmupRun i with
      | .error e => .error e
      | .ok _ =>
        match runHook opts.has_conclusion_command (ex.warmupConclude i) with
        | .error e => .error e
        | .ok _ => warmupPhase opts ex n (i + 1)

/-- The vectors accumulated across the measured runs, together with the
`all_succeeded` flag. -/
structure MeasureState where
  times_real : List ℚ
  times_user : List ℚ
  times_system : List ℚ
  memory_usage_byte : List ℕ
  exit_codes : List (Option Int)
  timing_results : List TimingResult
  all_succeeded : Bool
deriving DecidableEq, Repr

/-- Record one measured run: push its components onto every vector and
fold its exit success into `all_succeeded`. -/
def pushRun (st : MeasureState) (res : TimingResult) (status : ExitStatus) :
    MeasureState :=
  { times_real := st.times_real ++ [res.time_real],
    times_user := st.times_user ++ [res.time_user],
    times_system := st.times_system ++ [res.time_system],
    memory_usage_byte := st.memory_usage_byte ++ [res.memory_usage_byte],
    exit_codes := st.exit_codes ++ [status.code],
    timing_results := st.timing_results ++ [res],
    all_succeeded := st.all_succeeded && status.success }

/-- The adaptive total run count: raise `runs_in_min_time` to the
`run_bounds.min` floor, then lower to the `run_bounds.max` ceiling when one
is set. -/
def computeCount (runs_in_min_time : ℕ) (run_bounds_min : ℕ)
    (run_bounds_max : Option ℕ) : ℕ :=
  let mn := max runs_in_min_time run_bounds_min
  match run_bounds_max with
  | some mx => min mn mx
  | none => mn

/-- The measurement loop over the remaining `count - 1` iterations:
prepare → command (measured, result pushed) → conclude. -/
def measureLoop (opts : Options) (ex : ExecModel) :
    ℕ → ℕ → MeasureState → Except Unit MeasureState
  | 0, _, st => .ok st
  | Nat.succ n, i, st =>
    match runHook opts.has_preparation_command (ex.benchPrepare (i + 1)) with
    | .error e => .error e
    | .ok _ =>
      match ex.benchRun (i + 1) with
      | .error e => .error e
      | .ok (res, status) =>
        let st' := pushRun st res status
        match runHook opts.has_conclusion_command (ex.benchConclude (i + 1)) with
        | .error e => .error e
        | .ok _ => measureLoop opts ex n (i + 1) st'

/-- The driver's output record (`BenchmarkResult`), restricted to the
fields the embedded driver computes; the command-name and parameter-binding
strings (produced by the command templating component, outside the given
sources) are omitted. -/
structure BenchmarkResult where
  mean : ℚ
  stddev : Option ℚ
  median : ℚ
  user : ℚ
  system : ℚ
  min : ℚ
  max : ℚ
  times : Option (List ℚ)
  memory_usage_byte : Option (List ℕ)
  exit_codes : List (Option Int)
  poop_metrics : Option PoopMetrics
  poop_metrics_all : Option (List PoopMetrics)
deriving DecidableEq, Repr

/-- Assemble the `BenchmarkResult` from the accumulated vectors, mirroring
the statistics block and the `Ok(BenchmarkResult { .. })` tail of
`Benchmark::run`. -/
def mkResult (st : MeasureState) : BenchmarkResult :=
  let poop_all := st.timing_results.filterMap (fun tr => tr.poop_metrics)
  { mean := meanQ st.times_real,
    stddev :=
      if 1 < st.times_real.length then some (sampleVarianceQ st.times_real) else none,
    median := medianQ st.times_real,
    user := meanQ st.times_user,
    system := meanQ st.times_system,
    min := minQ st.times_real,
    max := maxQ st.times_real,
    times := some st.times_real,
    memory_usage_byte := some st.memory_usage_byte,
    exit_codes := st.exit_codes,
    poop_metrics := aggregate_poop_metrics st.timing_results,
    poop_metrics_all := if poop_all.isEmpty then none else some poop_all }

/-- `Benchmark::run` for a single benchmark: setup → warmup → initial
measured run (with prepare/conclude overhead sampling) → adaptive count →
measurement loop → cleanup → result.  The `as u64` float-to-integer cast of
`runs_in_min_time` is the floor clamped below at zero
(`Rat.floor` followed by `Int.toNat`). -/
def runBenchmark (opts : Options) (ex : ExecModel) : Except Unit BenchmarkResult :=
  match runHook opts.has_setup_command ex.setup with
  | .error e => .error e
  | .ok _ =>
    match warmupPhase opts ex opts.warmup_count 0 with
    | .error e => .error e
    | .ok _ =>
      match runHook opts.has_preparation_command (ex.benchPrepare 0) with
      | .error e => .error e
      | .ok preparation_result =>
        match ex.benchRun 0 with
        | .error e => .error e
        | .ok (res, status) =>
          match runHook opts.has_conclusion_command (ex.benchConclude 0) with
          | .error e => .error e
          | .ok conclusion_result =>
            let preparation_overhead := hookOverhead ex.time_overhead preparation_result
            let conclusion_overhead := hookOverhead ex.time_overhead conclusion_result
            let runs_in_min_time :=
              ((opts.min_benchmarking_time
                / (res.time_real + ex.time_overhead + preparation_overhead
                  + conclusion_overhead)).floor).toNat
            let count :=
              computeCount runs_in_min_time opts.run_bounds_min opts.run_bounds_max
            let st0 := pushRun (MeasureState.mk [] [] [] [] [] [] true) res status
            match measureLoop opts ex (count - 1) 0 st0 with
            | .error e => .error e
            | .ok st =>
              match runHook opts.has_cleanup_command ex.cleanup with
              | .error e => .error e
              | .ok _ => .ok (mkResult st)

/-! ## Loop lemmas -/

/-- Each successful `measureLoop` pass over `n` iterations extends every
accumulated vector by exactly `n` entries. -/
theorem measureLoop_ok_lengths (opts : Options) (ex : ExecModel) :
    ∀ n i st st', measureLoop opts ex n i st = .ok st' →
      st'.times_real.length = st.times_real.length + n ∧
      st'.memory_usage_byte.length = st.memory_usage_byte.length + n ∧
      st'.exit_codes.length = st.exit_codes.length + n ∧
      st'.timing_results.length = st.timing_results.length + n := by
  intro n
  induction n with
  | zero =>
    intro i st st' h
    simp only [measureLoop] at h
    cases h
    simp
  | succ n ih =>
    intro i st st' h
    simp only [measureLoop] at h
    split at h
    · exact Except.noConfusion h
    · split at h
      · exact Except.noConfusion h
      · rename_i res_status _
        split at h
        · exact Except.noConfusion h
        · obtain ⟨h1, h2, h3, h4⟩ := ih (i + 1) _ st' h
          simp only [pushRun, List.length_append, List.length_cons,
            List.length_nil] at h1 h2 h3 h4
          refine ⟨?_, ?_, ?_, ?_⟩ <;> omega

/-- `computeCount` never falls below the `run_bounds.min` floor, provided
the ceiling (when set) is at least the floor. -/
theorem computeCount_ge_min (q mn : ℕ) (mx : Option ℕ)
    (hmx : ∀ m, mx = some m → mn ≤ m) :
    mn ≤ computeCount q mn mx := by
  simp only [computeCount]
  cases mx with
  | none => exact Nat.le_max_right q mn
  | some m => exact le_min (Nat.le_max_right q mn) (hmx m rfl)

/-- `computeCount` never exceeds a set `run_bounds.max` ceiling. -/
theorem computeCount_le_max (q mn mx : ℕ) :
    computeCount q mn (some mx) ≤ mx := by
  simp only [computeCount]
  exact min_le_right _ _

/-! ## Claim C1: the adaptive run count -/

/-- Holds of a driver outcome when it either failed or produced a result
whose measured-time vector has exactly `n` entries. -/
def timesLengthIs (n : ℕ) : Except Unit BenchmarkResult → Prop
  | .error _ => True
  | .ok r => r.times.elim False (fun ts => ts.length = n)

/-- C1.  For every benchmark whose initial measured run yields command
wall-clock `res0.time_real`, hook results `po` / `co` (present exactly when
the corresponding hook is configured, contributing wall-clock plus executor
overhead via `hookOverhead`), and executor overhead `ex.time_overhead`: if
the driver produces a result, its total measured-run count (including the
initial run) is the floor of the budget quotient raised to
`run_bounds.min` and then lowered to `run_bounds.max` when set
(`computeCount`).  The bounds hypotheses mirror the documented option
invariants `min_runs ≥ 1` and `max_runs ≥ min_runs`. -/
theorem c1_adaptive_run_count (opts : Options) (ex : ExecModel)
    (res0 : TimingResult) (status0 : ExitStatus) (po co : Option TimingResult)
    (hmin : 1 ≤ opts.run_bounds_min)
    (hmax : ∀ mx, opts.run_bounds_max = some mx → opts.run_bounds_min ≤ mx)
    (hp : runHook opts.has_preparation_command (ex.benchPrepare 0) = .ok po)
    (h0 : ex.benchRun 0 = .ok (res0, status0))
    (hc : runHook opts.has_conclusion_command (ex.benchConclude 0) = .ok co) :
    timesLengthIs
      (computeCount
        ((opts.min_benchmarking_time
          / (res0.time_real + ex.time_overhead + hookOverhead ex.time_overhead po
            + hookOverhead ex.time_overhead co)).floor.toNat)
        opts.run_bounds_min opts.run_bounds_max)
      (runBenchmark opts ex) := by
  unfold runBenchmark
  cases hsetup : runHook opts.has_setup_command ex.setup with
  | error e => exact trivial
  | ok u =>
    cases hw : warmupPhase opts ex opts.warmup_count 0 with
    | error e => exact trivial
    | ok u2 =>
      rw [hp, h0, hc]
      dsimp only
      cases hml : measureLoop opts ex
          (computeCount
            ((opts.min_benchmarking_time
              / (res0.time_real + ex.time_overhead + hookOverhead ex.time_overhead po
                + hookOverhead ex.time_overhead co)).floor.toNat)
            opts.run_bounds_min opts.run_bounds_max - 1) 0
          (pushRun (MeasureState.mk [] [] [] [] [] [] true) res0 status0) with
      | error e => exact trivial
      | ok st =>
        cases hcl : runHook opts.has_cleanup_command ex.cleanup with
        | error e => exact trivial
        | ok u3 =>
          obtain ⟨h1, -, -, -⟩ := measureLoop_ok_lengths opts ex _ 0 _ st hml
          simp only [pushRun, List.length_append, List.length_cons,
            List.length_nil, List.nil_append] at h1
          have hge : 1 ≤ computeCount
              ((opts.min_benchmarking_time
                / (res0.time_real + ex.time_overhead + hookOverhead ex.time_overhead po
                  + hookOverhead ex.time_overhead co)).floor.toNat)
              opts.run_bounds_min opts.run_bounds_max :=
            le_trans hmin (computeCount_ge_min _ _ _ hmax)
          simp only [timesLengthIs, mkResult, Option.elim]
          omega

/-- A zero timing result for hook outcomes in witnesses. -/
def zeroTiming : TimingResult := ⟨0, 0, 0, 0, none⟩

/-- Concrete options for driver witnesses: no warmup, `min_runs = 2`, no
`max_runs`, a 3-second budget and no hooks. -/
def sample_options : Options := ⟨0, 2, none, 3, false, false, false, false⟩

/-- Concrete measured-run outcome for driver witnesses: 1-second runs that
exit 0. -/
def sample_run_result : TimingResult := ⟨1, 0, 0, 0, none⟩

/-- Concrete exit status for driver witnesses. -/
def sample_status : ExitStatus := ⟨true, some 0⟩

/-- Concrete executor for driver witnesses: zero overhead, every call
succeeds, every measured run takes 1 second. -/
def sample_exec : ExecModel :=
  { time_overhead := 0,
    setup := .ok zeroTiming,
    cleanup := .ok zeroTiming,
    warmupPrepare := fun _ => .ok zeroTiming,
    warmupRun := fun _ => .ok (sample_run_result, sample_status),
    warmupConclude := fun _ => .ok zeroTiming,
    benchPrepare := fun _ => .ok zeroTiming,
    benchRun := fun _ => .ok (sample_run_result, sample_status),
    benchConclude := fun _ => .ok (zeroTiming) }

/-- Witness for C1: with a 3-second budget and 1-second runs the driver
performs exactly `computeCount 3 2 none = 3` measured runs. -/
theorem c1_adaptive_run_count_witness :
    timesLengthIs 3 (runBenchmark sample_options sample_exec) := by
  have h := c1_adaptive_run_count sample_options sample_exec sample_run_result
    sample_status none none (by decide) (fun mx hmx => nomatch hmx) rfl rfl rfl
  have hcount :
      computeCount
        ((sample_options.min_benchmarking_time
          / (sample_run_result.time_real + sample_exec.time_overhead
            + hookOverhead sample_exec.time_overhead none
            + hookOverhead sample_exec.time_overhead none)).floor.toNat)
        sample_options.run_bounds_min sample_options.run_bounds_max = 3 := by
    simp only [sample_options, sample_exec, sample_run_result, hookOverhead, computeCount]
    norm_num [Rat.floor]
    rfl
  rwa [hcount] at h

/-! ## Claim C2: vector lengths and count bounds -/

/-- Holds of a driver outcome when it either failed or produced a result
whose real-time, memory and exit-code vectors all have the same length,
with that length between `run_bounds.min` and (when set) `run_bounds.max`. -/
def resultCountOk (opts : Options) : Except Unit BenchmarkResult → Prop
  | .error _ => True
  | .ok r =>
    r.times.elim False (fun ts =>
      r.memory_usage_byte.elim False (fun ms => ms.length = ts.length) ∧
      r.exit_codes.length = ts.length ∧
      opts.run_bounds_min ≤ ts.length ∧
      ∀ mx, opts.run_bounds_max = some mx → ts.length ≤ mx)

/-- C2.  For every benchmark that produces a result, given `min_runs ≥ 1`
and (when set) `max_runs ≥ min_runs`: the real-time, memory and exit-code
vectors all have the same length, that length is the actual measured-run
count, and it lies between `min_runs` and (when set) `max_runs`. -/
theorem c2_result_vectors (opts : Options) (ex : ExecModel)
    (hmin : 1 ≤ opts.run_bounds_min)
    (hmax : ∀ mx, opts.run_bounds_max = some mx → opts.run_bounds_min ≤ mx) :
    resultCountOk opts (runBenchmark opts ex) := by
  unfold runBenchmark
  cases hsetup : runHook opts.has_setup_command ex.setup with
  | error e => exact trivial
  | ok u =>
  cases hw : warmupPhase opts ex opts.warmup_count 0 with
  | error e => exact trivial
  | ok u2 =>
  cases hprep : runHook opts.has_preparation_command (ex.benchPrepare 0) with
  | error e => exact trivial
  | ok po =>
  cases hr0 : ex.benchRun 0 with
  | error e => exact trivial
  | ok rs =>
  obtain ⟨res0, status0⟩ := rs
  cases hconc : runHook opts.has_conclusion_command (ex.benchConclude 0) with
  | error e => exact trivial
  | ok co =>
  dsimp only
  cases hml : measureLoop opts ex
      (computeCount
        ((opts.min_benchmarking_time
          / (res0.time_real + ex.time_overhead + hookOverhead ex.time_overhead po
            + hookOverhead ex.time_overhead co)).floor.toNat)
        opts.run_bounds_min opts.run_bounds_max - 1) 0
      (pushRun (MeasureState.mk [] [] [] [] [] [] true) res0 status0) with
  | error e => exact trivial
  | ok st =>
  cases hcl : runHook opts.has_cleanup_command ex.cleanup with
  | error e => exact trivial
  | ok u3 =>
  obtain ⟨h1, h2, h3, -⟩ := measureLoop_ok_lengths opts ex _ 0 _ st hml
  simp only [pushRun, List.length_append, List.length_cons, List.length_nil,
    List.nil_append] at h1 h2 h3
  have hge : opts.run_bounds_min ≤ computeCount
      ((opts.min_benchmarking_time
        / (res0.time_real + ex.time_overhead + hookOverhead ex.time_overhead po
          + hookOverhead ex.time_overhead co)).floor.toNat)
      opts.run_bounds_min opts.run_bounds_max :=
    computeCount_ge_min _ _ _ hmax
  simp only [resultCountOk, mkResult, Option.elim]
  refine ⟨by omega, by omega, by omega, ?_⟩
  intro mx hmx
  rw [hmx] at h1 hge
  have hle := computeCount_le_max
    ((opts.min_benchmarking_time
      / (res0.time_real + ex.time_overhead + hookOverhead ex.time_overhead po
        + hookOverhead ex.time_overhead co)).floor.toNat)
    opts.run_bounds_min mx
  omega

/-- Witness for C2 at the concrete sample benchmark. -/
theorem c2_result_vectors_witness :
    resultCountOk sample_options (runBenchmark sample_options sample_exec) :=
  c2_result_vectors sample_options sample_exec (by decide)
    (fun mx hmx => nomatch hmx)

/-! ## Claim C9: positivity of the adaptive count -/

/-- C9, counterexample.  `min_runs ≥ 1` alone does not make the adaptive
count positive: with `min_runs = 1` and a set ceiling `max_runs = 0` (a
value the `u64` option field admits), the count is
`min (max 5 1) 0 = 0`, so the claim `count ≥ 1` fails and `count - 1`
would underflow in the driver. -/
theorem c9_counterexample : ¬ (1 ≤ computeCount 5 1 (some 0)) := by
  decide

/-- C9, amended.  With `min_runs ≥ 1` and, when a ceiling is set,
`max_runs ≥ min_runs` (the documented option invariant), the adaptive
count is at least 1, so the driver's `count - 1` never underflows. -/
theorem c9_count_positive (q mn : ℕ) (mx : Option ℕ) (hmn : 1 ≤ mn)
    (hmx : ∀ m, mx = some m → mn ≤ m) :
    1 ≤ computeCount q mn mx :=
  le_trans hmn (computeCount_ge_min q mn mx hmx)

/-- Witness for the amended C9 at concrete bounds. -/
theorem c9_count_positive_witness : 1 ≤ computeCount 5 2 (some 3) :=
  c9_count_positive 5 2 (some 3) (by decide)
    (fun m hm => by cases hm; decide)

/-! ## Claim C8: the per-run counter vector -/

/-- View of a driver outcome for the C8 counterexample: the lengths of the
measured-time vector and of the per-run counter vector. -/
def resultView : Except Unit BenchmarkResult → Option (Option ℕ × Option ℕ)
  | .error _ => none
  | .ok r => some (r.times.map List.length, r.poop_metrics_all.map List.length)

/-- A counter sample with only cpu_cycles present, for the C8 inputs. -/
def c8_sample : PoopMetrics := ⟨some 7, none, none, none, none, none, none⟩

/-- First measured run of the C8 counterexample: carries a counter sample. -/
def c8_run0 : TimingResult := ⟨1, 0, 0, 0, some c8_sample⟩

/-- Second measured run of the C8 counterexample: no counter sample. -/
def c8_run1 : TimingResult := ⟨1, 0, 0, 0, none⟩

/-- Options for the C8 counterexample: no warmup, `min_runs = 2`, no
ceiling, zero budget, no hooks. -/
def c8_options : Options := ⟨0, 2, none, 0, false, false, false, false⟩

/-- Executor for the C8 counterexample: run 0 produces a counter sample,
every later run does not. -/
def c8_exec : ExecModel :=
  { time_overhead := 0,
    setup := .ok zeroTiming,
    cleanup := .ok zeroTiming,
    warmupPrepare := fun _ => .ok zeroTiming,
    warmupRun := fun _ => .ok (c8_run1, sample_status),
    warmupConclude := fun _ => .ok zeroTiming,
    benchPrepare := fun _ => .ok zeroTiming,
    benchRun := fun i => if i = 0 then .ok (c8_run0, sample_status) else .ok (c8_run1, sample_status),
    benchConclude := fun _ => .ok zeroTiming }

/-- The accumulated state after the two measured runs of the C8
counterexample. -/
def c8_final_state : MeasureState :=
  ⟨[1, 1], [0, 0], [0, 0], [0, 0], [some 0, some 0], [c8_run0, c8_run1], true⟩

/-- C8, counterexample.  The claim says the result's per-run counter
vector has one entry per measured run.  In this two-run benchmark only the
first run produces a counter sample, and the driver builds the vector with
`filter_map`, so the result has a present counter vector of length 1
against a measured-run count of 2. -/
theorem c8_counterexample :
    resultView (runBenchmark c8_options c8_exec) = some (some 2, some 1) := by
  have hq : (c8_options.min_benchmarking_time
      / (c8_run0.time_real + c8_exec.time_overhead
        + hookOverhead c8_exec.time_overhead none
        + hookOverhead c8_exec.time_overhead none)) = 0 := by
    norm_num [c8_options, hookOverhead, c8_exec, c8_run0]
  unfold runBenchmark
  simp only [show runHook c8_options.has_setup_command c8_exec.setup = .ok none from rfl,
    show warmupPhase c8_options c8_exec c8_options.warmup_count 0 = .ok () from rfl,
    show runHook c8_options.has_preparation_command (c8_exec.benchPrepare 0) = .ok none from rfl,
    show c8_exec.benchRun 0 = .ok (c8_run0, sample_status) from rfl,
    show runHook c8_options.has_conclusion_command (c8_exec.benchConclude 0) = .ok none from rfl,
    show runHook c8_options.has_cleanup_command c8_exec.cleanup = .ok none from rfl]
  rw [hq]
  simp only [show ((0 : ℚ).floor.toNat) = 0 from rfl]
  simp only [show computeCount 0 c8_options.run_bounds_min c8_options.run_bounds_max - 1 = 1
      from rfl]
  rw [show measureLoop c8_options c8_exec 1 0
      (pushRun (MeasureState.mk [] [] [] [] [] [] true) c8_run0 sample_status) =
      .ok c8_final_state from rfl]
  rfl

/-- A list with positive length is not empty (Bool form). -/
theorem isEmpty_false_of_length_pos {α : Type} (l : List α) (h : 0 < l.length) :
    l.isEmpty = false := by
  cases l with
  | nil => simp at h
  | cons a t => rfl

/-- Collecting the attached samples keeps the length when every timing
result carries one. -/
theorem filterMap_poop_length (l : List TimingResult)
    (h : ∀ tr ∈ l, tr.poop_metrics.isSome = true) :
    (l.filterMap (fun tr => tr.poop_metrics)).length = l.length := by
  induction l with
  | nil => rfl
  | cons a t ih =>
    obtain ⟨m, hm⟩ := Option.isSome_iff_exists.mp (h a (by simp))
    simp [List.filterMap_cons, hm, ih (fun tr htr => h tr (by simp [htr]))]

/-- The measurement loop preserves the invariant that every accumulated
timing result carries a counter sample, provided every measured-run
outcome of the executor does. -/
theorem measureLoop_ok_poop (opts : Options) (ex : ExecModel)
    (hm : ∀ i tr s, ex.benchRun i = .ok (tr, s) → tr.poop_metrics.isSome = true) :
    ∀ n i st st', measureLoop opts ex n i st = .ok st' →
      (∀ tr ∈ st.timing_results, tr.poop_metrics.isSome = true) →
      ∀ tr ∈ st'.timing_results, tr.poop_metrics.isSome = true := by
  intro n
  induction n with
  | zero =>
    intro i st st' h hinv
    simp only [measureLoop] at h
    cases h
    exact hinv
  | succ n ih =>
    intro i st st' h hinv
    simp only [measureLoop] at h
    split at h
    · exact Except.noConfusion h
    · split at h
      · exact Except.noConfusion h
      · rename_i res status heq
        split at h
        · exact Except.noConfusion h
        · refine ih (i + 1) _ st' h ?_
          intro tr htr
          simp only [pushRun, List.mem_append, List.mem_singleton] at htr
          rcases htr with h1 | h1
          · exact hinv tr h1
          · subst h1
            exact hm (i + 1) tr status heq

/-- Holds of a driver outcome when it either failed or produced a result
whose per-run counter vector is present with exactly one entry per
measured run. -/
def poopAllFull : Except Unit BenchmarkResult → Prop
  | .error _ => True
  | .ok r =>
    r.times.elim False (fun ts =>
      r.poop_metrics_all.elim False (fun l => l.length = ts.length))

/-- C8, amended.  The per-run counter vector collects, in run order, the
samples of exactly those measured runs that produced one (the driver
builds it with `filter_map` and drops it when empty).  In particular, when
every measured run produces a counter sample — the situation the claim
describes — the vector is present and its length equals the actual
measured-run count. -/
theorem c8_full_vector_when_all_sampled (opts : Options) (ex : ExecModel)
    (hm : ∀ i tr s, ex.benchRun i = .ok (tr, s) → tr.poop_metrics.isSome = true) :
    poopAllFull (runBenchmark opts ex) := by
  unfold runBenchmark
  cases hsetup : runHook opts.has_setup_command ex.setup with
  | error e => exact trivial
  | ok u =>
  cases hw : warmupPhase opts ex opts.warmup_count 0 with
  | error e => exact trivial
  | ok u2 =>
  cases hprep : runHook opts.has_preparation_command (ex.benchPrepare 0) with
  | error e => exact trivial
  | ok po =>
  cases hr0 : ex.benchRun 0 with
  | error e => exact trivial
  | ok rs =>
  obtain ⟨res0, status0⟩ := rs
  cases hconc : runHook opts.has_conclusion_command (ex.benchConclude 0) with
  | error e => exact trivial
  | ok co =>
  dsimp only
  cases hml : measureLoop opts ex
      (computeCount
        ((opts.min_benchmarking_time
          / (res0.time_real + ex.time_overhead + hookOverhead ex.time_overhead po
            + hookOverhead ex.time_overhead co)).floor.toNat)
        opts.run_bounds_min opts.run_bounds_max - 1) 0
      (pushRun (MeasureState.mk [] [] [] [] [] [] true) res0 status0) with
  | error e => exact trivial
  | ok st =>
  cases hcl : runHook opts.has_cleanup_command ex.cleanup with
  | error e => exact trivial
  | ok u3 =>
  have hall : ∀ tr ∈ st.timing_results, tr.poop_metrics.isSome = true := by
    refine measureLoop_ok_poop opts ex hm _ 0 _ st hml ?_
    intro tr htr
    simp only [pushRun, List.nil_append, List.mem_singleton] at htr
    subst htr
    exact hm 0 tr status0 hr0
  obtain ⟨h1, -, -, h4⟩ := measureLoop_ok_lengths opts ex _ 0 _ st hml
  simp only [pushRun, List.length_append, List.length_cons, List.length_nil,
    List.nil_append] at h1 h4
  have hlen := filterMap_poop_length st.timing_results hall
  have hne : (st.timing_results.filterMap (fun tr => tr.poop_metrics)).isEmpty = false :=
    isEmpty_false_of_length_pos _ (by omega)
  simp only [poopAllFull, mkResult, hne, Bool.false_eq_true, if_false, Option.elim]
  omega

/-- Executor for the C8 witness: every measured run produces the
cpu-cycles-only counter sample. -/
def c8_witness_exec : ExecModel :=
  { time_overhead := 0,
    setup := .ok zeroTiming,
    cleanup := .ok zeroTiming,
    warmupPrepare := fun _ => .ok zeroTiming,
    warmupRun := fun _ => .ok (c8_run0, sample_status),
    warmupConclude := fun _ => .ok zeroTiming,
    benchPrepare := fun _ => .ok zeroTiming,
    benchRun := fun _ => .ok (c8_run0, sample_status),
    benchConclude := fun _ => .ok zeroTiming }

/-- Witness for the amended C8: with samples on every run the counter
vector is present and as long as the time vector. -/
theorem c8_full_vector_when_all_sampled_witness :
    poopAllFull (runBenchmark sample_options c8_witness_exec) :=
  c8_full_vector_when_all_sampled sample_options c8_witness_exec
    (fun i tr s h => by cases h; rfl)

/-! ## Claim C5: warmup failures are ignored -/

/-- Replace the warmup-run oracle of an executor model, keeping every
other call site unchanged. -/
def setWarmupRun (ex : ExecModel)
    (w : ℕ → Except Unit (TimingResult × ExitStatus)) : ExecModel :=
  ⟨ex.time_overhead, ex.setup, ex.cleanup, ex.warmupPrepare, w,
    ex.warmupConclude, ex.benchPrepare, ex.benchRun, ex.benchConclude⟩

theorem setWarmupRun_time_overhead (ex : ExecModel) (w : ℕ → Except Unit (TimingResult × ExitStatus)) :
    (setWarmupRun ex w).time_overhead = ex.time_overhead := rfl

theorem setWarmupRun_setup (ex : ExecModel) (w : ℕ → Except Unit (TimingResult × ExitStatus)) :
    (setWarmupRun ex w).setup = ex.setup := rfl

theorem setWarmupRun_cleanup (ex : ExecModel) (w : ℕ → Except Unit (TimingResult × ExitStatus)) :
    (setWarmupRun ex w).cleanup = ex.cleanup := rfl

theorem setWarmupRun_benchPrepare (ex : ExecModel) (w : ℕ → Except Unit (TimingResult × ExitStatus)) :
    (setWarmupRun ex w).benchPrepare = ex.benchPrepare := rfl

theorem setWarmupRun_benchRun (ex : ExecModel) (w : ℕ → Except Unit (TimingResult × ExitStatus)) :
    (setWarmupRun ex w).benchRun = ex.benchRun := rfl

theorem setWarmupRun_benchConclude (ex : ExecModel) (w : ℕ → Except Unit (TimingResult × ExitStatus)) :
    (setWarmupRun ex w).benchConclude = ex.benchConclude := rfl

/-- The warmup phase discards the warmup-run outcomes: two executors that
agree on the hook oracles and whose warmup runs both always return (with
any exit status) drive the phase to the same outcome. -/
theorem warmupPhase_congr (opts : Options) (ex1 ex2 : ExecModel)
    (hp : ex1.warmupPrepare = ex2.warmupPrepare)
    (hc : ex1.warmupConclude = ex2.warmupConclude)
    (h1 : ∀ i, ∃ v, ex1.warmupRun i = .ok v)
    (h2 : ∀ i, ∃ v, ex2.warmupRun i = .ok v) :
    ∀ n i, warmupPhase opts ex1 n i = warmupPhase opts ex2 n i := by
  intro n
  induction n with
  | zero => intro i; rfl
  | succ n ih =>
    intro i
    obtain ⟨v1, hv1⟩ := h1 i
    obtain ⟨v2, hv2⟩ := h2 i
    simp only [warmupPhase, hv1, hv2, hp, hc, ih]

/-- The measurement loop never consults the warmup oracle: executors that
agree on the measured-run call sites drive it identically. -/
theorem measureLoop_congr (opts : Options) (ex1 ex2 : ExecModel)
    (hp : ex1.benchPrepare = ex2.benchPrepare)
    (hr : ex1.benchRun = ex2.benchRun)
    (hc : ex1.benchConclude = ex2.benchConclude) :
    ∀ n i st, measureLoop opts ex1 n i st = measureLoop opts ex2 n i st := by
  intro n
  induction n with
  | zero => intro i st; rfl
  | succ n ih =>
    intro i st
    simp only [measureLoop, hp, hr, hc, ih]

/-- C5.  A warmup run of the benchmarked command that exits non-zero is
ignored: for any executor satisfying the contract that warmup runs return
instead of raising — whatever exit status they carry and whatever
`failure_action` is configured — the driver's entire outcome is
independent of the warmup-run results, so such a run neither aborts the
benchmark nor affects the produced result. -/
theorem c5_warmup_failures_ignored (opts : Options) (ex : ExecModel)
    (w1 w2 : ℕ → Except Unit (TimingResult × ExitStatus))
    (h1 : ∀ i, ∃ v, w1 i = .ok v) (h2 : ∀ i, ∃ v, w2 i = .ok v) :
    runBenchmark opts (setWarmupRun ex w1) = runBenchmark opts (setWarmupRun ex w2) := by
  have hwp := warmupPhase_congr opts (setWarmupRun ex w1) (setWarmupRun ex w2) rfl rfl h1 h2
  have hml := measureLoop_congr opts (setWarmupRun ex w1) (setWarmupRun ex w2) rfl rfl rfl
  unfold runBenchmark
  simp only [hwp, hml, setWarmupRun_time_overhead, setWarmupRun_setup,
    setWarmupRun_cleanup, setWarmupRun_benchPrepare, setWarmupRun_benchRun,
    setWarmupRun_benchConclude]

/-- Options for the C5 witness: two warmup runs. -/
def c5_options : Options := ⟨2, 2, none, 3, false, false, false, false⟩

/-- Warmup oracle whose every run fails with exit code 1 (but returns, per
the executor contract for warmup iterations). -/
def c5_fail_warmup : ℕ → Except Unit (TimingResult × ExitStatus) :=
  fun _ => .ok (⟨1, 0, 0, 0, none⟩, ⟨false, some 1⟩)

/-- Warmup oracle whose every run succeeds. -/
def c5_ok_warmup : ℕ → Except Unit (TimingResult × ExitStatus) :=
  fun _ => .ok (sample_run_result, sample_status)

/-- Witness for C5: failing and succeeding warmup runs give the very same
driver outcome. -/
theorem c5_warmup_failures_ignored_witness :
    runBenchmark c5_options (setWarmupRun sample_exec c5_fail_warmup) =
      runBenchmark c5_options (setWarmupRun sample_exec c5_ok_warmup) :=
  c5_warmup_failures_ignored c5_options sample_exec c5_fail_warmup c5_ok_warmup
    (fun _ => ⟨_, rfl⟩) (fun _ => ⟨_, rfl⟩)

/-- Witness for the amended C3 at the one-empty-sample input. -/
theorem c3_aggregate_characterization_witness :
    (aggregate_poop_metrics [c3_empty_sample_result] = none ↔
      [c3_empty_sample_result].filterMap (fun tr => tr.poop_metrics) = []) ∧
    (∀ m : MetricType,
      (((([c3_empty_sample_result].filterMap (fun tr => tr.poop_metrics)).filter
            (fun s => (s.slot m).isSome)).length = 0 →
          (aggregate_poop_metrics [c3_empty_sample_result]).bind (fun a => a.slot m) = none) ∧
        (0 < ((([c3_empty_sample_result].filterMap (fun tr => tr.poop_metrics)).filter
            (fun s => (s.slot m).isSome)).length) →
          (aggregate_poop_metrics [c3_empty_sample_result]).bind (fun a => a.slot m) =
            some ((([c3_empty_sample_result].filterMap (fun tr => tr.poop_metrics)).filterMap
                (fun s => s.slot m)).sum /
              ((([c3_empty_sample_result].filterMap (fun tr => tr.poop_metrics)).filter
                (fun s => (s.slot m).isSome)).length))))) :=
  c3_aggregate_characterization [c3_empty_sample_result]
